import Mathlib

/-!
# Typha sync protocol: update codec and no-op detection

A shallow embedding of `pkg/syncproto/sync_proto.go`:

* `syncproto.SerializedUpdate`, the wire record of one key/value change;
* `syncproto.SerializeUpdate` and `syncproto.SerializedUpdate.ToUpdate`, the codec;
* `syncproto.SerializedUpdate.WouldBeNoOp`, the deduplication test, together with the
  part of `reflect.DeepEqual` that it exercises.

Go values are embedded as follows.  A `[]byte` is an `Option (List Byte)`: `none` is the
nil slice and `some []` the empty, non-nil slice, which `reflect.DeepEqual` tells apart.
An `interface{}` holding a dynamic value of type `α` is an `Option α`, `none` being the
nil interface.  `time.Duration` (an `int64` that is only copied and compared here) is an
`Int`.  A Go function returning `(T, error)` is a function into `Except Err T`: with a
non-nil error it returns the zero value of `T`, as the functions of libcalico-go do.
-/

/-- One octet of a Go `[]byte`. -/
abbrev Byte := Fin 256

/-- A Go `[]byte`: `none` is the nil slice, `some bs` a non-nil slice with contents `bs`. -/
abbrev Bytes := Option (List Byte)

namespace api

/-- Modelled from the spec: the declaration of `api.UpdateType` lives in libcalico-go
(`lib/backend/api`), outside this repository's sources.  The spec describes it as the enum
of change classifications (created / updated / deleted, plus the unknown zero value); the
constructor names are the constants `sync_proto.go` and libcalico-go use. -/
inductive UpdateType where
  | UpdateTypeKVUnknown
  | UpdateTypeKVNew
  | UpdateTypeKVUpdated
  | UpdateTypeKVDeleted
  deriving DecidableEq, Repr

end api

namespace model

/-- Modelled from the spec: `model.KVPair` of libcalico-go, the domain change record
(key, value, revision, TTL).  `Value` and `Revision` are `interface{}` fields. -/
structure KVPair (Key Val Rev : Type) where
  Key : Key
  Value : Option Val
  Revision : Option Rev
  TTL : Int

/-- Modelled from the spec: the four functions of libcalico-go's `model` package that the
codec calls.  `Key` is the type of `model.Key` interface values (the nil key included),
`Val` the type of domain values and `Err` the type of non-nil `error` values. -/
structure Package (Key Val Rev Err : Type) where
  KeyToDefaultPath : Key → Except Err String
  SerializeValue : KVPair Key Val Rev → Except Err Bytes
  KeyFromDefaultPath : String → Key
  ParseValue : Key → Bytes → Except Err (Option Val)

/-- The local `var nilKV model.KVPair` of `SerializeUpdate` after `nilKV.Key = u.Key`: the
zero `KVPair` (nil value, nil revision, zero TTL) carrying the given key. -/
def nilKV {Key Val Rev : Type} (key : Key) : KVPair Key Val Rev :=
  { Key := key, Value := none, Revision := none, TTL := 0 }

end model

namespace api

/-- Modelled from the spec: `api.Update` of libcalico-go, a `model.KVPair` (embedded
struct) together with the `UpdateType` of the change. -/
structure Update (Key Val Rev : Type) extends model.KVPair Key Val Rev where
  UpdateType : api.UpdateType

end api

namespace reflect

/-- The `Slice` case of `reflect.DeepEqual` at element type `uint8`: slices of different
nil-ness are unequal, slices of different length are unequal, otherwise the contents are
compared octet by octet. -/
def deepEqualBytes : Bytes → Bytes → Bool
  | none, none => true
  | some a, some b =>
      if a.length ≠ b.length then false
      else (a.zip b).all (fun p => decide (p.1 = p.2))
  | _, _ => false

/-- The `Interface` case of `reflect.DeepEqual`: if either side is nil the result is
whether both are, otherwise the dynamic values are compared. -/
def deepEqualInterface {α : Type} [DecidableEq α] : Option α → Option α → Bool
  | none, none => true
  | some a, some b => decide (a = b)
  | _, _ => false

end reflect

namespace syncproto

/-- The wire record for one change (`type SerializedUpdate struct`). -/
structure SerializedUpdate (Rev : Type) where
  Key : String
  Value : Bytes
  Revision : Option Rev
  TTL : Int
  UpdateType : api.UpdateType

/-- The `Struct` case of `reflect.DeepEqual` at type `SerializedUpdate`: the fields are
compared in declaration order, each by the case for its kind. -/
def DeepEqual {Rev : Type} [DecidableEq Rev] (x y : SerializedUpdate Rev) : Bool :=
  decide (x.Key = y.Key) &&
  reflect.deepEqualBytes x.Value y.Value &&
  reflect.deepEqualInterface x.Revision y.Revision &&
  decide (x.TTL = y.TTL) &&
  decide (x.UpdateType = y.UpdateType)

/-- The method `func (s SerializedUpdate) WouldBeNoOp(previous SerializedUpdate) bool`.
Both receiver and argument are passed by value; the local copies are rewritten and then
compared with `reflect.DeepEqual`. -/
def SerializedUpdate.WouldBeNoOp {Rev : Type} [DecidableEq Rev]
    (s previous : SerializedUpdate Rev) : Bool :=
  let s : SerializedUpdate Rev := { s with Revision := none }
  let previous : SerializedUpdate Rev := { previous with Revision := none }
  let previous : SerializedUpdate Rev :=
    if previous.UpdateType = api.UpdateType.UpdateTypeKVNew then
      { previous with UpdateType := api.UpdateType.UpdateTypeKVUpdated }
    else previous
  DeepEqual s previous

/-- The map `N` of the deduplication contract, as the contract words it: a create
(`UpdateTypeKVNew`) counts as an update (`UpdateTypeKVUpdated`), every other update type
is left unchanged. -/
def normalizeType (t : api.UpdateType) : api.UpdateType :=
  if t = api.UpdateType.UpdateTypeKVNew then api.UpdateType.UpdateTypeKVUpdated else t

/-- The function `func SerializeUpdate(u api.Update) (kv SerializedUpdate, err error)`.
The error result is the `Except.error` branch; logging has no effect on the result. -/
def SerializeUpdate {Key Val Rev Err : Type} (m : model.Package Key Val Rev Err)
    (u : api.Update Key Val Rev) : Except Err (SerializedUpdate Rev) :=
  match m.KeyToDefaultPath u.Key with
  | .error err => .error err
  | .ok key =>
    let value : Except Err Bytes :=
      match m.SerializeValue u.toKVPair with
      | .ok v => .ok v
      | .error _ => m.SerializeValue (model.nilKV u.Key)
    match value with
    | .error err => .error err
    | .ok v =>
      .ok { Key := key, Value := v, Revision := u.Revision, TTL := u.TTL,
            UpdateType := u.UpdateType }

/-- The method `func (s SerializedUpdate) ToUpdate() api.Update`.  A parse error is only
logged; the value stored is the one `model.ParseValue` returned, which is nil when it
reports an error. -/
def SerializedUpdate.ToUpdate {Key Val Rev Err : Type} (m : model.Package Key Val Rev Err)
    (s : SerializedUpdate Rev) : api.Update Key Val Rev :=
  let parsedKey := m.KeyFromDefaultPath s.Key
  let parsedValue : Option Val :=
    match m.ParseValue parsedKey s.Value with
    | .ok v => v
    | .error _ => none
  { Key := parsedKey, Value := parsedValue, Revision := s.Revision, TTL := s.TTL,
    UpdateType := s.UpdateType }


/-- A small concrete model package on which the codec can be evaluated.  Keys are optional
paths (the nil key has no path), values are raw byte strings.  A nil value serializes to
JSON `null`; the empty byte string cannot be serialized; the key `/untyped` has no value
type, so nothing can be serialized or parsed for it. -/
def testPackage : model.Package (Option String) (List Byte) Nat String where
  KeyToDefaultPath := fun k =>
    match k with
    | none => .error "nil key"
    | some p => .ok p
  SerializeValue := fun d =>
    if d.Key = some "/untyped" then .error "unknown value type"
    else
      match d.Value with
      | none => .ok (some [110, 117, 108, 108])
      | some v => if v = [] then .error "empty value" else .ok (some v)
  KeyFromDefaultPath := fun p => if p = "" then none else some p
  ParseValue := fun k b =>
    if k = some "/untyped" then .error "unknown value type"
    else
      match b with
      | none => .error "no data"
      | some bs => if bs = [110, 117, 108, 108] then .ok none else .ok (some bs)

/-- The variables alive during a call `s.WouldBeNoOp(previous)`: the two records of the
caller, and the receiver `s` and the parameter `previous` of the method.  Receiver and
parameter have the struct type `SerializedUpdate` (not a pointer to it), so they are
variables of their own. -/
structure CallFrame (Rev : Type) where
  callerS : SerializedUpdate Rev
  callerPrevious : SerializedUpdate Rev
  s : SerializedUpdate Rev
  previous : SerializedUpdate Rev

/-- Entry into `WouldBeNoOp`: Go initialises the receiver and the parameter with copies of
the caller's records. -/
def enterWouldBeNoOp {Rev : Type} (callerS callerPrevious : SerializedUpdate Rev) :
    CallFrame Rev :=
  { callerS := callerS, callerPrevious := callerPrevious, s := callerS,
    previous := callerPrevious }

/-- The body of `WouldBeNoOp`, statement by statement, as assignments to the variables of
the frame; the second component is the value returned. -/
def runWouldBeNoOp {Rev : Type} [DecidableEq Rev] (f : CallFrame Rev) :
    CallFrame Rev × Bool :=
  let f : CallFrame Rev := { f with s := { f.s with Revision := none } }
  let f : CallFrame Rev := { f with previous := { f.previous with Revision := none } }
  let f : CallFrame Rev :=
    if f.previous.UpdateType = api.UpdateType.UpdateTypeKVNew then
      { f with previous :=
          { f.previous with UpdateType := api.UpdateType.UpdateTypeKVUpdated } }
    else f
  (f, DeepEqual f.s f.previous)

/-- The six message struct types declared in `sync_proto.go`. -/
inductive MessageType where
  | MsgClientHello
  | MsgServerHello
  | MsgSyncStatus
  | MsgPing
  | MsgPong
  | MsgKVs
  deriving DecidableEq, Repr

/-- The name under which each message struct type is declared. -/
def MessageType.typeName : MessageType → String
  | .MsgClientHello => "MsgClientHello"
  | .MsgServerHello => "MsgServerHello"
  | .MsgSyncStatus => "MsgSyncStatus"
  | .MsgPing => "MsgPing"
  | .MsgPong => "MsgPong"
  | .MsgKVs => "MsgKVs"

/-- The package path, followed by a dot, that all six literals passed to
`gob.RegisterName` in `init` start with. -/
def packagePath : String := "github.com/projectcalico/typha/pkg/syncproto."

/-- The registry of `encoding/gob`: the registered (name, type) pairs, in the order of
registration. -/
abbrev Registry := List (String × MessageType)

/-- Modelled from the spec: `gob.RegisterName` belongs to the Go standard library and is
not among this repository's sources; it is the `register(name, variant-descriptor)` of the
message registry.  It panics (the `Except.error` branch) on an empty name, on a name
already bound to another type and on a type already bound to another name; otherwise the
pair is recorded. -/
def RegisterName (name : String) (value : MessageType) (r : Registry) :
    Except String Registry :=
  if name = "" then .error "attempt to register empty name"
  else if r.any (fun e => decide (e.1 = name) && !decide (e.2 = value)) then
    .error "registering duplicate types"
  else if r.any (fun e => decide (e.2 = value) && !decide (e.1 = name)) then
    .error "registering duplicate names"
  else if r.any (fun e => decide (e.1 = name) && decide (e.2 = value)) then .ok r
  else .ok (r ++ [(name, value)])

/-- The function `func init()`: the six registrations, in order, starting from a registry
that holds none of this package's types. -/
def init : Except String Registry := do
  let r ← RegisterName "github.com/projectcalico/typha/pkg/syncproto.MsgClientHello"
    MessageType.MsgClientHello []
  let r ← RegisterName "github.com/projectcalico/typha/pkg/syncproto.MsgServerHello"
    MessageType.MsgServerHello r
  let r ← RegisterName "github.com/projectcalico/typha/pkg/syncproto.MsgSyncStatus"
    MessageType.MsgSyncStatus r
  let r ← RegisterName "github.com/projectcalico/typha/pkg/syncproto.MsgPing"
    MessageType.MsgPing r
  let r ← RegisterName "github.com/projectcalico/typha/pkg/syncproto.MsgPong"
    MessageType.MsgPong r
  RegisterName "github.com/projectcalico/typha/pkg/syncproto.MsgKVs" MessageType.MsgKVs r

/-! ## Deep equality -/

theorem zip_all_eq_iff (a : List Byte) :
    ∀ b : List Byte, a.length = b.length →
      ((a.zip b).all (fun p => decide (p.1 = p.2)) = true ↔ a = b) := by
  induction a with
  | nil =>
    intro b hb
    cases b with
    | nil => simp
    | cons y ys => simp at hb
  | cons x xs ih =>
    intro b hb
    cases b with
    | nil => simp at hb
    | cons y ys =>
      have hlen : xs.length = ys.length := by simpa using hb
      have h := ih ys hlen
      simp only [List.zip_cons_cons, List.all_cons, Bool.and_eq_true, decide_eq_true_eq,
        List.cons.injEq]
      rw [h]

theorem deepEqualBytes_iff (a b : Bytes) : reflect.deepEqualBytes a b = true ↔ a = b := by
  cases a with
  | none => cases b <;> simp [reflect.deepEqualBytes]
  | some x =>
    cases b with
    | none => simp [reflect.deepEqualBytes]
    | some y =>
      by_cases hlen : x.length = y.length
      · simp only [reflect.deepEqualBytes, hlen, ne_eq, not_true_eq_false, if_false,
          Option.some.injEq]
        exact zip_all_eq_iff x y hlen
      · have hne : x ≠ y := fun h => hlen (by rw [h])
        simp [reflect.deepEqualBytes, hlen, hne]

theorem deepEqualInterface_iff {α : Type} [DecidableEq α] (a b : Option α) :
    reflect.deepEqualInterface a b = true ↔ a = b := by
  cases a <;> cases b <;> simp [reflect.deepEqualInterface]

theorem DeepEqual_iff {Rev : Type} [DecidableEq Rev] (x y : SerializedUpdate Rev) :
    DeepEqual x y = true ↔
      x.Key = y.Key ∧ x.Value = y.Value ∧ x.Revision = y.Revision ∧ x.TTL = y.TTL ∧
        x.UpdateType = y.UpdateType := by
  simp only [DeepEqual, Bool.and_eq_true, decide_eq_true_eq, deepEqualBytes_iff,
    deepEqualInterface_iff]
  tauto

theorem noOp_characterisation {Rev : Type} [DecidableEq Rev] (s previous : SerializedUpdate Rev) :
    s.WouldBeNoOp previous = true ↔
      s.Key = previous.Key ∧ s.Value = previous.Value ∧ s.TTL = previous.TTL ∧
        s.UpdateType = normalizeType previous.UpdateType := by
  unfold SerializedUpdate.WouldBeNoOp normalizeType
  by_cases h : previous.UpdateType = api.UpdateType.UpdateTypeKVNew
  · simp [DeepEqual_iff, h]
  · simp [DeepEqual_iff, h]


theorem noOp_ignores_revision {Rev : Type} [DecidableEq Rev]
    (s previous : SerializedUpdate Rev) (r1 r2 : Option Rev) :
    ({ s with Revision := r1 } : SerializedUpdate Rev).WouldBeNoOp
        { previous with Revision := r2 } = s.WouldBeNoOp previous := by
  rw [Bool.eq_iff_iff, noOp_characterisation, noOp_characterisation]

/-! ## The deduplication test -/

/-- C1: `s.WouldBeNoOp(previous)` is true exactly when `Key`, `Value` and `TTL` of the two
records are equal and `s.UpdateType` equals `N(previous.UpdateType)`, where `N` turns
`UpdateTypeKVNew` into `UpdateTypeKVUpdated` and fixes every other type; the `Revision`
fields play no part: the condition does not mention them and replacing them by any other
revisions leaves the result unchanged. -/
theorem WouldBeNoOp_iff {Rev : Type} [DecidableEq Rev] (s previous : SerializedUpdate Rev) :
    (s.WouldBeNoOp previous = true ↔
      s.Key = previous.Key ∧ s.Value = previous.Value ∧ s.TTL = previous.TTL ∧
        s.UpdateType = normalizeType previous.UpdateType) ∧
    (∀ n : api.UpdateType, normalizeType n =
      match n with
      | api.UpdateType.UpdateTypeKVNew => api.UpdateType.UpdateTypeKVUpdated
      | other => other) ∧
    (∀ r1 r2 : Option Rev,
      ({ s with Revision := r1 } : SerializedUpdate Rev).WouldBeNoOp
          { previous with Revision := r2 } = s.WouldBeNoOp previous) := by
  refine ⟨noOp_characterisation s previous, ?_, noOp_ignores_revision s previous⟩
  intro n
  cases n <;> rfl

/-- C2 as stated fails: two records that are both creates (`UpdateTypeKVNew`) and agree in
every field, `Revision` included, are not a no-op of one another. -/
theorem WouldBeNoOp_same_fields_counterexample :
    let u : SerializedUpdate Nat :=
      { Key := "/a", Value := some [1], Revision := some 1, TTL := 0,
        UpdateType := api.UpdateType.UpdateTypeKVNew }
    let u' : SerializedUpdate Nat :=
      { Key := "/a", Value := some [1], Revision := some 2, TTL := 0,
        UpdateType := api.UpdateType.UpdateTypeKVNew }
    u.Key = u'.Key ∧ u.Value = u'.Value ∧ u.TTL = u'.TTL ∧ u.UpdateType = u'.UpdateType ∧
      u.WouldBeNoOp u' = false := by
  decide

/-- C2 (amended): two records with the same `Key`, `Value`, `TTL` and `UpdateType`, that
update type not being `UpdateTypeKVNew`, are a no-op of one another whatever their
`Revision`s are. -/
theorem WouldBeNoOp_same_fields {Rev : Type} [DecidableEq Rev] (u u' : SerializedUpdate Rev)
    (hKey : u.Key = u'.Key) (hValue : u.Value = u'.Value) (hTTL : u.TTL = u'.TTL)
    (hType : u.UpdateType = u'.UpdateType)
    (hNotNew : u.UpdateType ≠ api.UpdateType.UpdateTypeKVNew) :
    u.WouldBeNoOp u' = true := by
  rw [noOp_characterisation]
  refine ⟨hKey, hValue, hTTL, ?_⟩
  have h : u'.UpdateType ≠ api.UpdateType.UpdateTypeKVNew := hType ▸ hNotNew
  simp [normalizeType, h, hType]

theorem WouldBeNoOp_same_fields_witness :
    let u : SerializedUpdate Nat :=
      { Key := "/a", Value := some [1], Revision := some 1, TTL := 30,
        UpdateType := api.UpdateType.UpdateTypeKVDeleted }
    let u' : SerializedUpdate Nat :=
      { Key := "/a", Value := some [1], Revision := some 2, TTL := 30,
        UpdateType := api.UpdateType.UpdateTypeKVDeleted }
    u.Key = u'.Key ∧ u.Value = u'.Value ∧ u.TTL = u'.TTL ∧ u.UpdateType = u'.UpdateType ∧
      u.UpdateType ≠ api.UpdateType.UpdateTypeKVNew ∧ u.Revision ≠ u'.Revision ∧
      u.WouldBeNoOp u' = true :=
  ⟨rfl, rfl, rfl, rfl, by decide, by decide,
    WouldBeNoOp_same_fields _ _ rfl rfl rfl rfl (by decide)⟩

/-- C3: the result of `WouldBeNoOp` does not depend on `Revision`: replacing `s.Revision`
by `r1` and `previous.Revision` by `r2` leaves `s.WouldBeNoOp(previous)` unchanged. -/
theorem WouldBeNoOp_revision_independent {Rev : Type} [DecidableEq Rev]
    (s previous : SerializedUpdate Rev) (r1 r2 : Option Rev) :
    ({ s with Revision := r1 } : SerializedUpdate Rev).WouldBeNoOp
        { previous with Revision := r2 } = s.WouldBeNoOp previous :=
  noOp_ignores_revision s previous r1 r2

/-- C4: an update (`UpdateTypeKVUpdated`) that follows a create (`UpdateTypeKVNew`) with the
same `Key`, `Value` and `TTL` is a no-op, whatever the two `Revision`s are. -/
theorem WouldBeNoOp_update_after_create {Rev : Type} [DecidableEq Rev]
    (s previous : SerializedUpdate Rev)
    (hs : s.UpdateType = api.UpdateType.UpdateTypeKVUpdated)
    (hp : previous.UpdateType = api.UpdateType.UpdateTypeKVNew)
    (hKey : s.Key = previous.Key) (hValue : s.Value = previous.Value)
    (hTTL : s.TTL = previous.TTL) :
    s.WouldBeNoOp previous = true := by
  rw [noOp_characterisation]
  exact ⟨hKey, hValue, hTTL, by simp [normalizeType, hs, hp]⟩

theorem WouldBeNoOp_update_after_create_witness :
    let s : SerializedUpdate Nat :=
      { Key := "/a", Value := some [7, 8], Revision := some 5, TTL := 10,
        UpdateType := api.UpdateType.UpdateTypeKVUpdated }
    let previous : SerializedUpdate Nat :=
      { Key := "/a", Value := some [7, 8], Revision := none, TTL := 10,
        UpdateType := api.UpdateType.UpdateTypeKVNew }
    s.UpdateType = api.UpdateType.UpdateTypeKVUpdated ∧
      previous.UpdateType = api.UpdateType.UpdateTypeKVNew ∧
      s.Key = previous.Key ∧ s.Value = previous.Value ∧ s.TTL = previous.TTL ∧
      s.WouldBeNoOp previous = true :=
  ⟨rfl, rfl, rfl, rfl, rfl, WouldBeNoOp_update_after_create _ _ rfl rfl rfl rfl rfl⟩

/-- C5: two records whose `Value`s differ are never a no-op of one another, whatever their
`Key`, `TTL`, `UpdateType` and `Revision` are. -/
theorem WouldBeNoOp_value_differs {Rev : Type} [DecidableEq Rev]
    (s previous : SerializedUpdate Rev) (hValue : s.Value ≠ previous.Value) :
    s.WouldBeNoOp previous = false := by
  rw [Bool.eq_false_iff]
  intro h
  rw [noOp_characterisation] at h
  exact hValue h.2.1

theorem WouldBeNoOp_value_differs_witness :
    let s : SerializedUpdate Nat :=
      { Key := "/a", Value := some [1, 2], Revision := some 3, TTL := 0,
        UpdateType := api.UpdateType.UpdateTypeKVUpdated }
    let previous : SerializedUpdate Nat :=
      { Key := "/a", Value := some [1, 3], Revision := some 3, TTL := 0,
        UpdateType := api.UpdateType.UpdateTypeKVUpdated }
    s.Value ≠ previous.Value ∧ s.WouldBeNoOp previous = false :=
  ⟨by decide, WouldBeNoOp_value_differs _ _ (by decide)⟩


/-! ## The codec -/

theorem serialize_of_key_error {Key Val Rev Err : Type} (m : model.Package Key Val Rev Err)
    (u : api.Update Key Val Rev) (e : Err) (hk : m.KeyToDefaultPath u.Key = .error e) :
    SerializeUpdate m u = .error e := by
  simp [SerializeUpdate, hk]

theorem serialize_of_value_ok {Key Val Rev Err : Type} (m : model.Package Key Val Rev Err)
    (u : api.Update Key Val Rev) (path : String) (v : Bytes)
    (hk : m.KeyToDefaultPath u.Key = .ok path) (hv : m.SerializeValue u.toKVPair = .ok v) :
    SerializeUpdate m u =
      .ok { Key := path, Value := v, Revision := u.Revision, TTL := u.TTL,
            UpdateType := u.UpdateType } := by
  simp [SerializeUpdate, hk, hv]

theorem serialize_of_value_error {Key Val Rev Err : Type}
    (m : model.Package Key Val Rev Err) (u : api.Update Key Val Rev) (path : String) (e : Err)
    (hk : m.KeyToDefaultPath u.Key = .ok path)
    (hv : m.SerializeValue u.toKVPair = .error e) :
    SerializeUpdate m u =
      match m.SerializeValue (model.nilKV u.Key) with
      | .error err => .error err
      | .ok v =>
        .ok { Key := path, Value := v, Revision := u.Revision, TTL := u.TTL,
              UpdateType := u.UpdateType } := by
  simp [SerializeUpdate, hk, hv]

/-- C6: when the key of `u` converts to a path, the value of `u` fails to serialize and the
nil-valued pair for the same key does serialize, `SerializeUpdate(u)` returns no error and a
record whose `Value` is that nil-value serialization, whose `Key` is the path of `u.Key`
and whose `UpdateType`, `TTL` and `Revision` are those of `u`. -/
theorem SerializeUpdate_substitutes_nil_value {Key Val Rev Err : Type}
    (m : model.Package Key Val Rev Err) (u : api.Update Key Val Rev)
    (path : String) (e : Err) (marker : Bytes)
    (hk : m.KeyToDefaultPath u.Key = .ok path)
    (hv : m.SerializeValue u.toKVPair = .error e)
    (hn : m.SerializeValue (model.nilKV u.Key) = .ok marker) :
    SerializeUpdate m u =
      .ok { Key := path, Value := marker, Revision := u.Revision, TTL := u.TTL,
            UpdateType := u.UpdateType } := by
  rw [serialize_of_value_error m u path e hk hv, hn]

theorem SerializeUpdate_substitutes_nil_value_witness :
    let u : api.Update (Option String) (List Byte) Nat :=
      { Key := some "/a", Value := some [], Revision := some 7, TTL := 15,
        UpdateType := api.UpdateType.UpdateTypeKVUpdated }
    testPackage.KeyToDefaultPath u.Key = .ok "/a" ∧
    testPackage.SerializeValue u.toKVPair = .error "empty value" ∧
    testPackage.SerializeValue (model.nilKV u.Key) = .ok (some [110, 117, 108, 108]) ∧
    SerializeUpdate testPackage u =
      .ok { Key := "/a", Value := some [110, 117, 108, 108], Revision := some 7, TTL := 15,
            UpdateType := api.UpdateType.UpdateTypeKVUpdated } :=
  ⟨rfl, rfl, rfl,
    SerializeUpdate_substitutes_nil_value testPackage _ "/a" "empty value"
      (some [110, 117, 108, 108]) rfl rfl rfl⟩


theorem serialize_error_cases {Key Val Rev Err : Type}
    (m : model.Package Key Val Rev Err) (u : api.Update Key Val Rev) (e : Err) :
    SerializeUpdate m u = .error e ↔
      (m.KeyToDefaultPath u.Key = .error e ∨
        ((∃ path, m.KeyToDefaultPath u.Key = .ok path) ∧
          (∃ e1, m.SerializeValue u.toKVPair = .error e1) ∧
          m.SerializeValue (model.nilKV u.Key) = .error e)) := by
  cases hk : m.KeyToDefaultPath u.Key with
  | error ek =>
    rw [serialize_of_key_error m u ek hk]
    simp
  | ok path =>
    cases hv : m.SerializeValue u.toKVPair with
    | ok v =>
      rw [serialize_of_value_ok m u path v hk hv]
      simp
    | error ev =>
      rw [serialize_of_value_error m u path ev hk hv]
      cases hn : m.SerializeValue (model.nilKV u.Key) with
      | ok v => simp
      | error en => simp

/-- C7: `SerializeUpdate(u)` returns an error if and only if either the conversion of
`u.Key` to its default path fails, or the serialization of the value of `u` fails and the
serialization of the nil-valued substitute for the same key fails as well.  The error
returned is the key-conversion error in the first case and, when the key converts, the error
of the substitute serialization in the second. -/
theorem SerializeUpdate_error_iff {Key Val Rev Err : Type}
    (m : model.Package Key Val Rev Err) (u : api.Update Key Val Rev) :
    ((∃ e, SerializeUpdate m u = .error e) ↔
      ((∃ ek, m.KeyToDefaultPath u.Key = .error ek) ∨
        ((∃ ev, m.SerializeValue u.toKVPair = .error ev) ∧
          (∃ en, m.SerializeValue (model.nilKV u.Key) = .error en)))) ∧
    (∀ ek, m.KeyToDefaultPath u.Key = .error ek → SerializeUpdate m u = .error ek) ∧
    (∀ path ev en, m.KeyToDefaultPath u.Key = .ok path →
      m.SerializeValue u.toKVPair = .error ev →
      m.SerializeValue (model.nilKV u.Key) = .error en →
      SerializeUpdate m u = .error en) := by
  refine ⟨?_, ?_, ?_⟩
  · constructor
    · rintro ⟨e, he⟩
      rcases (serialize_error_cases m u e).1 he with hk | ⟨_, hv, hn⟩
      · exact Or.inl ⟨e, hk⟩
      · exact Or.inr ⟨hv, e, hn⟩
    · rintro (⟨ek, hk⟩ | ⟨⟨ev, hv⟩, en, hn⟩)
      · exact ⟨ek, serialize_of_key_error m u ek hk⟩
      · cases hk : m.KeyToDefaultPath u.Key with
        | error ek => exact ⟨ek, serialize_of_key_error m u ek hk⟩
        | ok path =>
          exact ⟨en, (serialize_error_cases m u en).2
            (Or.inr ⟨⟨path, hk⟩, ⟨ev, hv⟩, hn⟩)⟩
  · intro ek hk
    exact serialize_of_key_error m u ek hk
  · intro path ev en hk hv hn
    exact (serialize_error_cases m u en).2 (Or.inr ⟨⟨path, hk⟩, ⟨ev, hv⟩, hn⟩)

theorem serialize_ok_cases {Key Val Rev Err : Type}
    (m : model.Package Key Val Rev Err) (u : api.Update Key Val Rev)
    (kv : SerializedUpdate Rev) (h : SerializeUpdate m u = .ok kv) :
    m.KeyToDefaultPath u.Key = .ok kv.Key ∧ kv.Revision = u.Revision ∧ kv.TTL = u.TTL ∧
      kv.UpdateType = u.UpdateType ∧
      (m.SerializeValue u.toKVPair = .ok kv.Value ∨
        ((∃ ev, m.SerializeValue u.toKVPair = .error ev) ∧
          m.SerializeValue (model.nilKV u.Key) = .ok kv.Value)) := by
  cases hk : m.KeyToDefaultPath u.Key with
  | error ek =>
    rw [serialize_of_key_error m u ek hk] at h
    cases h
  | ok path =>
    cases hv : m.SerializeValue u.toKVPair with
    | ok v =>
      rw [serialize_of_value_ok m u path v hk hv] at h
      cases h
      simp
    | error ev =>
      rw [serialize_of_value_error m u path ev hk hv] at h
      cases hn : m.SerializeValue (model.nilKV u.Key) with
      | error en =>
        rw [hn] at h
        cases h
      | ok v =>
        rw [hn] at h
        cases h
        simp

/-- C8: when `SerializeUpdate(u)` returns no error, the `TTL`, `Revision` and `UpdateType`
of the returned record are exactly those of `u` and its `Key` is the result of
`model.KeyToDefaultPath(u.Key)`; in particular a zero `TTL` stays zero. -/
theorem SerializeUpdate_copies_fields {Key Val Rev Err : Type}
    (m : model.Package Key Val Rev Err) (u : api.Update Key Val Rev)
    (kv : SerializedUpdate Rev) (h : SerializeUpdate m u = .ok kv) :
    kv.TTL = u.TTL ∧ kv.Revision = u.Revision ∧ kv.UpdateType = u.UpdateType ∧
      m.KeyToDefaultPath u.Key = .ok kv.Key ∧ (u.TTL = 0 → kv.TTL = 0) := by
  obtain ⟨hk, hr, ht, hu, _⟩ := serialize_ok_cases m u kv h
  exact ⟨ht, hr, hu, hk, fun h0 => ht.trans h0⟩

theorem SerializeUpdate_copies_fields_witness :
    let u : api.Update (Option String) (List Byte) Nat :=
      { Key := some "/b", Value := some [65], Revision := some 42, TTL := 0,
        UpdateType := api.UpdateType.UpdateTypeKVNew }
    let kv : SerializedUpdate Nat :=
      { Key := "/b", Value := some [65], Revision := some 42, TTL := 0,
        UpdateType := api.UpdateType.UpdateTypeKVNew }
    SerializeUpdate testPackage u = .ok kv ∧
    (kv.TTL = u.TTL ∧ kv.Revision = u.Revision ∧ kv.UpdateType = u.UpdateType ∧
      testPackage.KeyToDefaultPath u.Key = .ok kv.Key ∧ (u.TTL = 0 → kv.TTL = 0)) :=
  ⟨rfl, SerializeUpdate_copies_fields testPackage _ _ rfl⟩

/-- C9: when the `Value` of `s` fails to parse against the key parsed from `s.Key`,
`s.ToUpdate()` still returns an update: its `Value` is nil, its `Key` is the parsed key and
its `Revision`, `TTL` and `UpdateType` are those of `s`. -/
theorem ToUpdate_parse_failure {Key Val Rev Err : Type}
    (m : model.Package Key Val Rev Err) (s : SerializedUpdate Rev) (e : Err)
    (h : m.ParseValue (m.KeyFromDefaultPath s.Key) s.Value = .error e) :
    s.ToUpdate m =
      { Key := m.KeyFromDefaultPath s.Key, Value := none, Revision := s.Revision,
        TTL := s.TTL, UpdateType := s.UpdateType } := by
  simp [SerializedUpdate.ToUpdate, h]

theorem ToUpdate_parse_failure_witness :
    let s : SerializedUpdate Nat :=
      { Key := "/untyped", Value := some [1, 2, 3], Revision := some 9, TTL := 60,
        UpdateType := api.UpdateType.UpdateTypeKVUpdated }
    testPackage.ParseValue (testPackage.KeyFromDefaultPath s.Key) s.Value =
      .error "unknown value type" ∧
    s.ToUpdate testPackage =
      { Key := some "/untyped", Value := none, Revision := some 9, TTL := 60,
        UpdateType := api.UpdateType.UpdateTypeKVUpdated } :=
  ⟨rfl, ToUpdate_parse_failure testPackage _ "unknown value type" rfl⟩


theorem testPackage_reads_key_value (d d' : model.KVPair (Option String) (List Byte) Nat)
    (hKey : d.Key = d'.Key) (hValue : d.Value = d'.Value) :
    testPackage.SerializeValue d = testPackage.SerializeValue d' := by
  simp [testPackage, hKey, hValue]

/-- C10 as stated fails: a deletion that still carries a value is serialized with that
value, not with the serialization of a nil value for its key. -/
theorem SerializeUpdate_deletion_counterexample :
    let u : api.Update (Option String) (List Byte) Nat :=
      { Key := some "/a", Value := some [1], Revision := some 4, TTL := 0,
        UpdateType := api.UpdateType.UpdateTypeKVDeleted }
    SerializeUpdate testPackage u =
      .ok { Key := "/a", Value := some [1], Revision := some 4, TTL := 0,
            UpdateType := api.UpdateType.UpdateTypeKVDeleted } ∧
    testPackage.SerializeValue (model.nilKV u.Key) = .ok (some [110, 117, 108, 108]) ∧
    ¬ (∀ kv : SerializedUpdate Nat, SerializeUpdate testPackage u = .ok kv →
        testPackage.SerializeValue (model.nilKV u.Key) = .ok kv.Value) := by
  refine ⟨rfl, rfl, ?_⟩
  intro h
  have h1 : (Except.ok (some [110, 117, 108, 108]) : Except String Bytes) =
      Except.ok (some [1]) := h _ rfl
  simp at h1

/-- C10 (amended): `SerializeUpdate` never looks at the `UpdateType`.  When it returns a
record without error, the `Value` of the record is the serialization of the pair of `u`
whenever that serialization succeeds, and it is the absence marker, the serialization of a
nil value for `u.Key`, when that serialization fails; it is therefore the absence marker
whenever `u.Value` is nil, provided `model.SerializeValue` depends only on the `Key` and
`Value` of the pair it is given. -/
theorem SerializeUpdate_value_of_record {Key Val Rev Err : Type}
    (m : model.Package Key Val Rev Err) (u : api.Update Key Val Rev)
    (kv : SerializedUpdate Rev) (h : SerializeUpdate m u = .ok kv) :
    (∀ v, m.SerializeValue u.toKVPair = .ok v → kv.Value = v) ∧
    (∀ ev, m.SerializeValue u.toKVPair = .error ev →
      m.SerializeValue (model.nilKV u.Key) = .ok kv.Value) ∧
    (u.Value = none →
      (∀ d d' : model.KVPair Key Val Rev, d.Key = d'.Key → d.Value = d'.Value →
        m.SerializeValue d = m.SerializeValue d') →
      m.SerializeValue (model.nilKV u.Key) = .ok kv.Value) := by
  obtain ⟨_, _, _, _, hval⟩ := serialize_ok_cases m u kv h
  refine ⟨?_, ?_, ?_⟩
  · intro v hv
    rcases hval with h1 | ⟨⟨ev, h1⟩, _⟩
    · rw [hv] at h1
      cases h1
      rfl
    · rw [hv] at h1
      cases h1
  · intro ev hv
    rcases hval with h1 | ⟨_, h2⟩
    · rw [hv] at h1
      cases h1
    · exact h2
  · intro hnil hdep
    rcases hval with h1 | ⟨_, h2⟩
    · rw [hdep (model.nilKV u.Key) u.toKVPair rfl hnil.symm]
      exact h1
    · exact h2

theorem SerializeUpdate_value_of_record_witness :
    let u : api.Update (Option String) (List Byte) Nat :=
      { Key := some "/a", Value := none, Revision := some 4, TTL := 5,
        UpdateType := api.UpdateType.UpdateTypeKVDeleted }
    let kv : SerializedUpdate Nat :=
      { Key := "/a", Value := some [110, 117, 108, 108], Revision := some 4, TTL := 5,
        UpdateType := api.UpdateType.UpdateTypeKVDeleted }
    SerializeUpdate testPackage u = .ok kv ∧
    testPackage.SerializeValue (model.nilKV u.Key) = .ok kv.Value :=
  ⟨rfl, (SerializeUpdate_value_of_record testPackage
      { Key := some "/a", Value := none, Revision := some 4, TTL := 5,
        UpdateType := api.UpdateType.UpdateTypeKVDeleted }
      { Key := "/a", Value := some [110, 117, 108, 108], Revision := some 4, TTL := 5,
        UpdateType := api.UpdateType.UpdateTypeKVDeleted } rfl).2.2 rfl
    testPackage_reads_key_value⟩

/-! ## Round trip through the codec -/

/-- C11: round trip of an update through the codec.  When `SerializeUpdate(u)` returns a
record `s` without error and `model.KeyFromDefaultPath` inverts `model.KeyToDefaultPath` on
`u.Key`, the update `s.ToUpdate()` has the `Key`, `Revision`, `TTL` and `UpdateType` of
`u`; when moreover `model.ParseValue` inverts `model.SerializeValue` for the key and value
of `u`, it also has the `Value` of `u`, so it is `u`. -/
theorem ToUpdate_SerializeUpdate {Key Val Rev Err : Type}
    (m : model.Package Key Val Rev Err) (u : api.Update Key Val Rev)
    (s : SerializedUpdate Rev) (h : SerializeUpdate m u = .ok s)
    (hKey : ∃ path, m.KeyToDefaultPath u.Key = .ok path ∧ m.KeyFromDefaultPath path = u.Key) :
    (s.ToUpdate m).Key = u.Key ∧ (s.ToUpdate m).Revision = u.Revision ∧
      (s.ToUpdate m).TTL = u.TTL ∧ (s.ToUpdate m).UpdateType = u.UpdateType ∧
      ((∃ b, m.SerializeValue u.toKVPair = .ok b ∧ m.ParseValue u.Key b = .ok u.Value) →
        (s.ToUpdate m).Value = u.Value ∧ s.ToUpdate m = u) := by
  obtain ⟨hk, hr, ht, hu, hval⟩ := serialize_ok_cases m u s h
  obtain ⟨path, hp, hinv⟩ := hKey
  have hpath : s.Key = path := by
    rw [hk] at hp
    cases hp
    rfl
  have hkey : m.KeyFromDefaultPath s.Key = u.Key := by rw [hpath, hinv]
  have hK : (s.ToUpdate m).Key = u.Key := hkey
  have hR : (s.ToUpdate m).Revision = u.Revision := hr
  have hT : (s.ToUpdate m).TTL = u.TTL := ht
  have hU : (s.ToUpdate m).UpdateType = u.UpdateType := hu
  refine ⟨hK, hR, hT, hU, ?_⟩
  rintro ⟨b, hb, hparse⟩
  have hsv : s.Value = b := by
    rcases hval with h1 | ⟨⟨ev, h1⟩, _⟩
    · rw [hb] at h1
      cases h1
      rfl
    · rw [hb] at h1
      cases h1
  have hV : (s.ToUpdate m).Value = u.Value := by
    simp [SerializedUpdate.ToUpdate, hkey, hsv, hparse]
  refine ⟨hV, ?_⟩
  cases u with
  | mk kvp ut =>
    cases kvp
    simp only [SerializedUpdate.ToUpdate] at hK hR hT hU hV ⊢
    simp_all

theorem ToUpdate_SerializeUpdate_witness :
    let u : api.Update (Option String) (List Byte) Nat :=
      { Key := some "/calico/a", Value := some [104, 105], Revision := some 12, TTL := 0,
        UpdateType := api.UpdateType.UpdateTypeKVNew }
    let s : SerializedUpdate Nat :=
      { Key := "/calico/a", Value := some [104, 105], Revision := some 12, TTL := 0,
        UpdateType := api.UpdateType.UpdateTypeKVNew }
    SerializeUpdate testPackage u = .ok s ∧ s.ToUpdate testPackage = u :=
  ⟨rfl, ((ToUpdate_SerializeUpdate testPackage
      { Key := some "/calico/a", Value := some [104, 105], Revision := some 12, TTL := 0,
        UpdateType := api.UpdateType.UpdateTypeKVNew }
      { Key := "/calico/a", Value := some [104, 105], Revision := some 12, TTL := 0,
        UpdateType := api.UpdateType.UpdateTypeKVNew }
      rfl ⟨"/calico/a", rfl, rfl⟩).2.2.2.2 ⟨some [104, 105], rfl, rfl⟩).2⟩

/-! ## The caller's records -/

/-- C12: `WouldBeNoOp` mutates neither record of the caller.  After the body has run on the
frame of a call, the caller's `s` and `previous` are the records passed in (same `Key`,
`Value`, `Revision`, `TTL` and `UpdateType`), although the method's own copies have their
`Revision` cleared and the copy of `previous` has its `UpdateType` normalised; the value
returned is the one `WouldBeNoOp` computes. -/
theorem WouldBeNoOp_preserves_caller {Rev : Type} [DecidableEq Rev]
    (a b : SerializedUpdate Rev) :
    (runWouldBeNoOp (enterWouldBeNoOp a b)).1.callerS = a ∧
    (runWouldBeNoOp (enterWouldBeNoOp a b)).1.callerPrevious = b ∧
    (runWouldBeNoOp (enterWouldBeNoOp a b)).1.s = { a with Revision := none } ∧
    (runWouldBeNoOp (enterWouldBeNoOp a b)).1.previous =
      { b with Revision := none, UpdateType := normalizeType b.UpdateType } ∧
    (runWouldBeNoOp (enterWouldBeNoOp a b)).2 = a.WouldBeNoOp b := by
  by_cases h : b.UpdateType = api.UpdateType.UpdateTypeKVNew
  · simp [runWouldBeNoOp, enterWouldBeNoOp, SerializedUpdate.WouldBeNoOp, normalizeType, h]
  · simp [runWouldBeNoOp, enterWouldBeNoOp, SerializedUpdate.WouldBeNoOp, normalizeType, h]

/-! ## Registration of the message types -/

theorem init_registry :
    init = .ok
      [("github.com/projectcalico/typha/pkg/syncproto.MsgClientHello",
          MessageType.MsgClientHello),
        ("github.com/projectcalico/typha/pkg/syncproto.MsgServerHello",
          MessageType.MsgServerHello),
        ("github.com/projectcalico/typha/pkg/syncproto.MsgSyncStatus",
          MessageType.MsgSyncStatus),
        ("github.com/projectcalico/typha/pkg/syncproto.MsgPing", MessageType.MsgPing),
        ("github.com/projectcalico/typha/pkg/syncproto.MsgPong", MessageType.MsgPong),
        ("github.com/projectcalico/typha/pkg/syncproto.MsgKVs", MessageType.MsgKVs)] := by
  rfl

/-- C13: `init` runs without a panic and leaves a registry that holds exactly the six
message types `MsgClientHello`, `MsgServerHello`, `MsgSyncStatus`, `MsgPing`, `MsgPong` and
`MsgKVs`, each once and each under the name made of the constant package path
`github.com/projectcalico/typha/pkg/syncproto.` followed by the name of the type; the six
names are pairwise distinct, so a name determines at most one message type. -/
theorem init_registers_six :
    ∃ r : Registry, init = .ok r ∧
      r.map Prod.snd =
        [MessageType.MsgClientHello, MessageType.MsgServerHello, MessageType.MsgSyncStatus,
          MessageType.MsgPing, MessageType.MsgPong, MessageType.MsgKVs] ∧
      (∀ t : MessageType, (packagePath ++ t.typeName, t) ∈ r) ∧
      (∀ e ∈ r, e.1 = packagePath ++ e.2.typeName) ∧
      (r.map Prod.fst).Nodup ∧
      (∀ n t t', (n, t) ∈ r → (n, t') ∈ r → t = t') := by
  refine ⟨_, init_registry, rfl, ?_, ?_, ?_, ?_⟩
  · intro t
    cases t <;> decide
  · decide
  · decide
  · intro n t t' h h'
    simp only [List.mem_cons, Prod.mk.injEq, List.mem_singleton, List.not_mem_nil,
      or_false] at h h'
    rcases h with h | h | h | h | h | h <;> rcases h' with h' | h' | h' | h' | h' | h' <;>
      first
      | exact h.2.trans h'.2.symm
      | exact absurd (h.1.symm.trans h'.1) (by decide)

/-! ## Behaviour of the deduplication test -/

theorem normalizeType_ne_new (n : api.UpdateType) :
    normalizeType n ≠ api.UpdateType.UpdateTypeKVNew := by
  cases n <;> decide

theorem normalizeType_idem (n : api.UpdateType) :
    normalizeType (normalizeType n) = normalizeType n := by
  cases n <;> rfl

theorem normalizeType_of_ne_new (n : api.UpdateType)
    (h : n ≠ api.UpdateType.UpdateTypeKVNew) : normalizeType n = n := by
  simp [normalizeType, h]

/-- C14: a candidate that is a create is never suppressed: when `s.UpdateType` is
`UpdateTypeKVNew`, `s.WouldBeNoOp(previous)` is false for every `previous`; in particular
`u.WouldBeNoOp(u)` is false when `u` is a create, and it is true for every other update
type. -/
theorem WouldBeNoOp_create_never_suppressed {Rev : Type} [DecidableEq Rev]
    (s previous : SerializedUpdate Rev) :
    (s.UpdateType = api.UpdateType.UpdateTypeKVNew → s.WouldBeNoOp previous = false) ∧
    (s.UpdateType = api.UpdateType.UpdateTypeKVNew → s.WouldBeNoOp s = false) ∧
    (s.UpdateType ≠ api.UpdateType.UpdateTypeKVNew → s.WouldBeNoOp s = true) := by
  have hfalse : ∀ p : SerializedUpdate Rev,
      s.UpdateType = api.UpdateType.UpdateTypeKVNew → s.WouldBeNoOp p = false := by
    intro p hs
    rw [Bool.eq_false_iff]
    intro h
    rw [noOp_characterisation] at h
    exact normalizeType_ne_new p.UpdateType (h.2.2.2.symm.trans hs)
  refine ⟨hfalse previous, hfalse s, ?_⟩
  intro hs
  rw [noOp_characterisation]
  exact ⟨rfl, rfl, rfl, (normalizeType_of_ne_new _ hs).symm⟩

theorem WouldBeNoOp_create_never_suppressed_witness :
    let s : SerializedUpdate Nat :=
      { Key := "/a", Value := some [1], Revision := some 1, TTL := 0,
        UpdateType := api.UpdateType.UpdateTypeKVNew }
    let previous : SerializedUpdate Nat :=
      { Key := "/a", Value := some [1], Revision := some 1, TTL := 0,
        UpdateType := api.UpdateType.UpdateTypeKVDeleted }
    s.WouldBeNoOp previous = false ∧ s.WouldBeNoOp s = false ∧
      previous.WouldBeNoOp previous = true :=
  ⟨(WouldBeNoOp_create_never_suppressed
      ({ Key := "/a", Value := some [1], Revision := some 1, TTL := 0,
         UpdateType := api.UpdateType.UpdateTypeKVNew } : SerializedUpdate Nat)
      { Key := "/a", Value := some [1], Revision := some 1, TTL := 0,
        UpdateType := api.UpdateType.UpdateTypeKVDeleted }).1 rfl,
   (WouldBeNoOp_create_never_suppressed
      ({ Key := "/a", Value := some [1], Revision := some 1, TTL := 0,
         UpdateType := api.UpdateType.UpdateTypeKVNew } : SerializedUpdate Nat)
      { Key := "/a", Value := some [1], Revision := some 1, TTL := 0,
        UpdateType := api.UpdateType.UpdateTypeKVDeleted }).2.1 rfl,
   (WouldBeNoOp_create_never_suppressed
      ({ Key := "/a", Value := some [1], Revision := some 1, TTL := 0,
         UpdateType := api.UpdateType.UpdateTypeKVDeleted } : SerializedUpdate Nat)
      { Key := "/a", Value := some [1], Revision := some 1, TTL := 0,
        UpdateType := api.UpdateType.UpdateTypeKVDeleted }).2.2 (by decide)⟩

/-- C15: suppression chains are sound.  If `s.WouldBeNoOp(p)` and `t.WouldBeNoOp(s)` are
true then `t.WouldBeNoOp(p)` is true; more precisely, once `s` is a no-op after `p`, a
sender that keeps `p` as the last record sent decides for every `t` exactly as one that
compares against `s`. -/
theorem WouldBeNoOp_trans {Rev : Type} [DecidableEq Rev] (p s t : SerializedUpdate Rev)
    (hsp : s.WouldBeNoOp p = true) :
    (t.WouldBeNoOp s = true → t.WouldBeNoOp p = true) ∧
      t.WouldBeNoOp p = t.WouldBeNoOp s := by
  rw [noOp_characterisation] at hsp
  obtain ⟨hk, hv, ht, hu⟩ := hsp
  have heq : t.WouldBeNoOp p = t.WouldBeNoOp s := by
    rw [Bool.eq_iff_iff, noOp_characterisation, noOp_characterisation, hk, hv, ht, hu,
      normalizeType_idem]
  exact ⟨fun h => heq.trans h, heq⟩

theorem WouldBeNoOp_trans_witness :
    let p : SerializedUpdate Nat :=
      { Key := "/a", Value := some [1], Revision := some 1, TTL := 0,
        UpdateType := api.UpdateType.UpdateTypeKVNew }
    let s : SerializedUpdate Nat :=
      { Key := "/a", Value := some [1], Revision := some 2, TTL := 0,
        UpdateType := api.UpdateType.UpdateTypeKVUpdated }
    let t : SerializedUpdate Nat :=
      { Key := "/a", Value := some [1], Revision := some 3, TTL := 0,
        UpdateType := api.UpdateType.UpdateTypeKVUpdated }
    s.WouldBeNoOp p = true ∧ t.WouldBeNoOp s = true ∧ t.WouldBeNoOp p = true :=
  ⟨by decide, by decide,
    (WouldBeNoOp_trans
      ({ Key := "/a", Value := some [1], Revision := some 1, TTL := 0,
         UpdateType := api.UpdateType.UpdateTypeKVNew } : SerializedUpdate Nat)
      { Key := "/a", Value := some [1], Revision := some 2, TTL := 0,
        UpdateType := api.UpdateType.UpdateTypeKVUpdated }
      { Key := "/a", Value := some [1], Revision := some 3, TTL := 0,
        UpdateType := api.UpdateType.UpdateTypeKVUpdated } (by decide)).1 (by decide)⟩

/-- C16: `WouldBeNoOp` tells an absent `Value` from a zero-length one: when one of the two
`Value`s is the nil slice and the other a non-nil empty slice, the result is false, whatever
the other fields are (in particular when `Key`, `TTL` and `UpdateType` agree). -/
theorem WouldBeNoOp_nil_vs_empty {Rev : Type} [DecidableEq Rev]
    (s previous : SerializedUpdate Rev)
    (h : (s.Value = none ∧ previous.Value = some []) ∨
      (s.Value = some [] ∧ previous.Value = none)) :
    s.WouldBeNoOp previous = false := by
  rw [Bool.eq_false_iff]
  intro hno
  rw [noOp_characterisation] at hno
  have hv := hno.2.1
  rcases h with ⟨h1, h2⟩ | ⟨h1, h2⟩
  · rw [h1, h2] at hv
    cases hv
  · rw [h1, h2] at hv
    cases hv

theorem WouldBeNoOp_nil_vs_empty_witness :
    let s : SerializedUpdate Nat :=
      { Key := "/a", Value := none, Revision := none, TTL := 0,
        UpdateType := api.UpdateType.UpdateTypeKVUpdated }
    let previous : SerializedUpdate Nat :=
      { Key := "/a", Value := some [], Revision := none, TTL := 0,
        UpdateType := api.UpdateType.UpdateTypeKVUpdated }
    s.Key = previous.Key ∧ s.TTL = previous.TTL ∧ s.UpdateType = previous.UpdateType ∧
      s.WouldBeNoOp previous = false ∧ previous.WouldBeNoOp s = false :=
  ⟨rfl, rfl, rfl,
    WouldBeNoOp_nil_vs_empty
      ({ Key := "/a", Value := none, Revision := none, TTL := 0,
         UpdateType := api.UpdateType.UpdateTypeKVUpdated } : SerializedUpdate Nat)
      { Key := "/a", Value := some [], Revision := none, TTL := 0,
        UpdateType := api.UpdateType.UpdateTypeKVUpdated } (Or.inl ⟨rfl, rfl⟩),
    WouldBeNoOp_nil_vs_empty
      ({ Key := "/a", Value := some [], Revision := none, TTL := 0,
         UpdateType := api.UpdateType.UpdateTypeKVUpdated } : SerializedUpdate Nat)
      { Key := "/a", Value := none, Revision := none, TTL := 0,
        UpdateType := api.UpdateType.UpdateTypeKVUpdated } (Or.inr ⟨rfl, rfl⟩)⟩

end syncproto
